import Mathlib

/-!
Verification of the OLE2 compound-file container engine of `converter.go`
(the excelibur XLS converter).  The Go code is shallowly embedded: the raw
file is a `List Nat` of byte values, sectors are `List Nat`, 32-bit
allocation-table entries are `Nat` (they come from 4-byte little-endian
decoding and are therefore below 2^32), and fallible Go functions return
`Except Err α`.  A Go runtime panic (slice bounds violation) is modelled by
the dedicated `Err.goPanic` value so that a crash stays distinguishable from
a returned error, and the unbounded `for` loop of the chain walker is
modelled with an explicit fuel parameter: `none` means the loop has not
finished within the given number of iterations.
-/

/-- Error outcomes of the container engine.  The first five constructors
correspond to the error kinds of the design document and to the `errors.New`
/ `fmt.Errorf` values of `converter.go`; `goPanic` models a Go runtime panic
(it is not a returned error value), and `fuelOut` is an artefact of the
fuel-indexed embedding of the chain-walking loop. -/
inductive Err where
  | truncatedInput
  | invalidSignature
  | corruptStructure
  | missingRootStorage
  | streamNotFound
  | goPanic
  | fuelOut
deriving DecidableEq, Repr

/-- Little-endian 16-bit read at a byte offset, as done by
`binary.LittleEndian.Uint16` / `binary.Read` on a byte slice. -/
def u16le (bs : List Nat) (off : Nat) : Nat :=
  bs.getD off 0 + 256 * bs.getD (off + 1) 0

/-- Little-endian 32-bit read at a byte offset. -/
def u32le (bs : List Nat) (off : Nat) : Nat :=
  u16le bs off + 65536 * u16le bs (off + 2)

/-- Little-endian 64-bit read at a byte offset. -/
def u64le (bs : List Nat) (off : Nat) : Nat :=
  u32le bs off + 4294967296 * u32le bs (off + 4)

/-- The fixed OLE2 magic: bytes D0 CF 11 E0 A1 B1 1A E1
(`OLE2_SIGNATURE` in `converter.go`). -/
def OLE2SIG : List Nat := [0xD0, 0xCF, 0x11, 0xE0, 0xA1, 0xB1, 0x1A, 0xE1]

/-- `SECTOR_SIZE` of `converter.go`: the fixed on-disk header size. -/
def SECTOR_SIZE : Nat := 512

/-- The loop body of `readChain`: Go's
`for nextSector != 0xFFFFFFFE { if nextSector < 0 || nextSector >= len(fat)
{ break }; chain = append(chain, nextSector); nextSector = int(fat[nextSector]) }`.
`fat` entries are decoded `uint32` values so `nextSector` is never negative;
the fuel argument bounds the number of iterations the model is allowed to
run, and `none` reports that the Go loop has not terminated within it. -/
def readChainLoop (fat : List Nat) : Nat → List Nat → Nat → Option (List Nat)
  | 0, _, _ => none
  | fuel + 1, chain, nextSector =>
    if nextSector = 0xFFFFFFFE then some chain
    else if fat.length ≤ nextSector then some chain
    else readChainLoop fat fuel (chain ++ [nextSector]) (fat.getD nextSector 0)

/-- `readChain` of `converter.go`: returns `[]` when the start is out of
range or the end-of-chain sentinel, otherwise seeds the chain with the start
index and follows the table. -/
def readChainGo (fat : List Nat) (startSector : Nat) (fuel : Nat) : Option (List Nat) :=
  if fat.length ≤ startSector ∨ startSector = 0xFFFFFFFE then some []
  else readChainLoop fat fuel [startSector] (fat.getD startSector 0)

theorem readChainLoop_two_cycle (fuel : Nat) :
    ∀ chain next, (next = 0 ∨ next = 1) →
      readChainLoop [1, 0] fuel chain next = none := by
  induction fuel with
  | zero => intro chain next _; rfl
  | succ n ih =>
    intro chain next hn
    rcases hn with h | h <;> subst h <;> simp [readChainLoop] <;>
      [exact ih _ 1 (Or.inr rfl); exact ih _ 0 (Or.inl rfl)]

/-- C1: the chain walker does NOT terminate on a cyclic allocation table.
On the two-entry table where index 0 points to 1 and index 1 points to 0,
`readChain` starting at 0 runs forever: for every iteration budget the
fuel-indexed model still reports non-termination, so no
`CorruptStructureError` (or any value at all) is ever produced. -/
theorem readChain_cycle_diverges :
    ∀ fuel : Nat, readChainGo [1, 0] 0 fuel = none := by
  intro fuel
  have h0 : ¬ (List.length [1, 0] ≤ 0 ∨ 0 = 0xFFFFFFFE) := by decide
  simp only [readChainGo, if_neg h0]
  exact readChainLoop_two_cycle fuel [0] 1 (Or.inr rfl)

/-- The OLE2 header of `converter.go` (`Ole2Header`), with multi-byte
fields already decoded from their little-endian layout.  The byte offsets
are those produced by `binary.Read` on the packed Go struct: signature at
0, CLSID at 8, the five 16-bit fields at 24..33, six reserved bytes, the
32-bit fields at 40..75, and the 109 inline DIFAT slots at 76..511. -/
structure Ole2Header where
  signature : List Nat
  clsid : List Nat
  minorVersion : Nat
  dllVersion : Nat
  byteOrder : Nat
  sectorShift : Nat
  miniSectorShift : Nat
  reserved1 : List Nat
  numDirSectors : Nat
  numFATSectors : Nat
  firstDirSector : Nat
  transactionSig : Nat
  miniStreamCutoff : Nat
  firstMiniFATSec : Nat
  numMiniFATSecs : Nat
  firstDIFATSec : Nat
  numDIFATSecs : Nat
  difat : List Nat
deriving DecidableEq, Repr

/-- Field-by-field decoding of the 512-byte header, mirroring
`binary.Read(reader, binary.LittleEndian, &header)`. -/
def decodeHeader (bs : List Nat) : Ole2Header :=
  { signature := bs.take 8
  , clsid := (bs.drop 8).take 16
  , minorVersion := u16le bs 24
  , dllVersion := u16le bs 26
  , byteOrder := u16le bs 28
  , sectorShift := u16le bs 30
  , miniSectorShift := u16le bs 32
  , reserved1 := (bs.drop 34).take 6
  , numDirSectors := u32le bs 40
  , numFATSectors := u32le bs 44
  , firstDirSector := u32le bs 48
  , transactionSig := u32le bs 52
  , miniStreamCutoff := u32le bs 56
  , firstMiniFATSec := u32le bs 60
  , numMiniFATSecs := u32le bs 64
  , firstDIFATSec := u32le bs 68
  , numDIFATSecs := u32le bs 72
  , difat := (List.range 109).map (fun i => u32le bs (76 + 4 * i)) }

/-- Go's `int(1 << s)` on a 64-bit `int`: the shift of the `int`-typed
constant 1 is performed in two's complement, so the value is `2^s` for
`s < 63`, `-2^63` for `s = 63` (the bit lands on the sign position), and
`0` for `s >= 64` (every bit is shifted out). -/
def goShl1 (s : Nat) : Int :=
  let w : Nat := (1 <<< s) % 2 ^ 64
  if w < 2 ^ 63 then (w : Int) else (w : Int) - 2 ^ 64

/-- The values `parseOLE2` derives directly from the header: the header
itself plus `ole.sectorSize = int(1 << SectorShift)` and
`ole.miniSectorSize = int(1 << MiniSectorShift)`.  The sizes are Go `int`
values and carry the 64-bit wrap of the shift (`goShl1`), so they are `Int`
here: exponent 63 gives a negative size and exponents 64 and above give
zero. -/
structure HeaderStage where
  header : Ole2Header
  sectorSize : Int
  miniSectorSize : Int
deriving DecidableEq, Repr

/-- The header stage of `parseOLE2` (its first three blocks): the size
check, `binary.Read` of the header, the signature check, and the
computation of the two sector sizes in Go's 64-bit `int`. -/
def parseHeaderStage (data : List Nat) : Except Err HeaderStage :=
  if data.length < SECTOR_SIZE then .error .truncatedInput
  else
    let header := decodeHeader data
    if header.signature = OLE2SIG then
      .ok ⟨header, goShl1 header.sectorShift, goShl1 header.miniSectorShift⟩
    else .error .invalidSignature

/-- The UTF-16 code points of the literal string "Root Entry" that
`parseOLE2` compares directory entry names against. -/
def rootEntryName : List Nat := [82, 111, 111, 116, 32, 69, 110, 116, 114, 121]

/-- The name-decoding loop of `parseOLE2`: up to 32 little-endian 16-bit
code units from the raw name field, stopping at the first zero.  The first
argument of the inner recursion is the current unit index `j`, the second
the number of units still allowed (32 at the top call). -/
def decodeNameFrom (nameRaw : List Nat) : Nat → Nat → List Nat
  | _, 0 => []
  | j, rem + 1 =>
    let w := u16le nameRaw (2 * j)
    if w = 0 then [] else w :: decodeNameFrom nameRaw (j + 1) rem

/-- Decode the 64-byte raw name field into the entry's name. -/
def decodeName (nameRaw : List Nat) : List Nat :=
  decodeNameFrom nameRaw 0 32

/-- A directory entry (`dirEntry` in `converter.go`), as decoded from one
128-byte record. -/
structure DirEntry where
  name : List Nat
  nameRaw : List Nat
  entryType : Nat
  colorFlag : Nat
  leftSibID : Nat
  rightSibID : Nat
  childID : Nat
  clsid : List Nat
  stateBits : Nat
  createTime : Nat
  modifyTime : Nat
  startSector : Nat
  streamSize : Nat
  isDirectory : Bool
  isRootStorage : Bool
deriving DecidableEq, Repr

/-- The zero value of `dirEntry` (Go's default-initialised struct), used to
build concrete test entries. -/
def emptyDirEntry : DirEntry :=
  { name := [], nameRaw := [], entryType := 0, colorFlag := 0, leftSibID := 0
  , rightSibID := 0, childID := 0, clsid := [], stateBits := 0, createTime := 0
  , modifyTime := 0, startSector := 0, streamSize := 0, isDirectory := false
  , isRootStorage := false }

/-- Decoding of one 128-byte directory record, mirroring the sequence of
`binary.Read` calls in `parseOLE2`: 64 name bytes, type and colour bytes at
offsets 64 and 65, three 32-bit sibling/child ids, the 16-byte class id,
32-bit state bits, two 64-bit timestamps, the 32-bit start sector at offset
114 and the 64-bit stream size at offset 118.  The flags are set exactly as
in the source: `isDirectory` when the type byte is 1, and `isRootStorage`
when the decoded name equals the literal "Root Entry". -/
def decodeDirEntry (blk : List Nat) : DirEntry :=
  let nameRaw := blk.take 64
  let name := decodeName nameRaw
  { name := name
  , nameRaw := nameRaw
  , entryType := blk.getD 64 0
  , colorFlag := blk.getD 65 0
  , leftSibID := u32le blk 66
  , rightSibID := u32le blk 70
  , childID := u32le blk 74
  , clsid := (blk.drop 78).take 16
  , stateBits := u32le blk 94
  , createTime := u64le blk 98
  , modifyTime := u64le blk 106
  , startSector := u32le blk 114
  , streamSize := u64le blk 118
  , isDirectory := decide (blk.getD 64 0 = 1)
  , isRootStorage := decide (name = rootEntryName) }

/-- The record loop of `parseOLE2`: one entry per full 128-byte chunk of the
directory stream (the Go loop steps `i` by 128 and breaks as soon as fewer
than 128 bytes remain, so exactly `length / 128` records are decoded, in
order). -/
def parseDirEntries (dirData : List Nat) : List DirEntry :=
  (List.range (dirData.length / 128)).map
    (fun k => decodeDirEntry ((dirData.drop (128 * k)).take 128))

/-- The root-storage search of `parseOLE2`: the first entry whose
`isRootStorage` flag is set, or the "root storage not found" error. -/
def findRootStorage (entries : List DirEntry) : Except Err DirEntry :=
  match entries.find? (fun e => e.isRootStorage) with
  | some e => .ok e
  | none => .error .missingRootStorage

/-- A 128-byte directory record whose object type byte (offset 64) is 5 but
whose name is the single character "R": under the specification's
classification this is the root storage entry. -/
def recType5 : List Nat := [82, 0] ++ List.replicate 62 0 ++ [5] ++ List.replicate 63 0

/-- A 128-byte directory record named "Root Entry" (UTF-16LE in the name
field) whose object type byte is 2 (stream): under the specification's
classification this is NOT a root storage entry. -/
def recNamedRoot : List Nat :=
  [82, 0, 111, 0, 111, 0, 116, 0, 32, 0, 69, 0, 110, 0, 116, 0, 114, 0, 121, 0] ++
    List.replicate 44 0 ++ [2] ++ List.replicate 63 0

instance {ε α : Type} [DecidableEq ε] [DecidableEq α] : DecidableEq (Except ε α) := fun a b =>
  match a, b with
  | .ok x, .ok y =>
    if h : x = y then isTrue (by rw [h]) else isFalse (by intro hh; cases hh; exact h rfl)
  | .error x, .error y =>
    if h : x = y then isTrue (by rw [h]) else isFalse (by intro hh; cases hh; exact h rfl)
  | .ok _, .error _ => isFalse (by intro hh; cases hh)
  | .error _, .ok _ => isFalse (by intro hh; cases hh)

set_option maxRecDepth 40000

/-- C2: the directory parser classifies by the literal name "Root Entry",
not by object type 5.  A record with object type 5 and a different name is
not classified as root storage, and parsing its record list fails with the
missing-root-storage error even though a type-5 record exists; conversely a
record named "Root Entry" with object type 2 is accepted as the root even
though no record has type 5. -/
theorem rootClassification_is_name_based :
    (decodeDirEntry recType5).entryType = 5 ∧
    (decodeDirEntry recType5).isRootStorage = false ∧
    findRootStorage (parseDirEntries recType5) = .error .missingRootStorage ∧
    (decodeDirEntry recNamedRoot).entryType = 2 ∧
    findRootStorage (parseDirEntries recNamedRoot) = .ok (decodeDirEntry recNamedRoot) := by
  refine ⟨rfl, by decide, rfl, rfl, rfl⟩

/-- `getSector` of `converter.go`: the byte range
`data[512 + sectorId*sectorSize : ...]` with the END clamped to the buffer
length.  The start offset is NOT clamped, so when it lies beyond the buffer
the Go slice expression has inverted bounds and panics; that case is
`none`. -/
def getSector (data : List Nat) (sectorId sectorSize : Nat) : Option (List Nat) :=
  let offset := 512 + sectorId * sectorSize
  if data.length < offset then none
  else some ((data.drop offset).take sectorSize)

/-- Grouping a byte list into little-endian 32-bit values, dropping a
trailing group of fewer than four bytes (what `binary.Read` produces for a
`[]uint32` destination). -/
def decodeU32s : List Nat → List Nat
  | b0 :: b1 :: b2 :: b3 :: rest =>
    (b0 + 256 * b1 + 65536 * b2 + 16777216 * b3) :: decodeU32s rest
  | _ => []

/-- `binary.Read(bytes.NewReader(sectorData), binary.LittleEndian,
&fatEntries)` with `fatEntries := make([]uint32, sectorSize/4)`: it needs
`(sectorSize/4)*4` bytes and fails (the "error reading FAT sector" branch,
a `CorruptStructureError`) when the sector data is shorter. -/
def readFATEntries (sectorData : List Nat) (sectorSize : Nat) : Except Err (List Nat) :=
  if sectorData.length < sectorSize / 4 * 4 then .error .corruptStructure
  else .ok (decodeU32s (sectorData.take (sectorSize / 4 * 4)))

/-- The FAT-building loop of `parseOLE2` over the 109 inline DIFAT slots:
slots equal to the FREE sentinel 0xFFFFFFFF are skipped, every other slot's
sector is read with `getSector` (a start offset beyond the buffer is a Go
panic) and decoded as 32-bit entries that are appended in slot order. -/
def buildFatLoop (data : List Nat) (sectorSize : Nat) : List Nat → List Nat → Except Err (List Nat)
  | [], acc => .ok acc
  | slot :: rest, acc =>
    if slot = 0xFFFFFFFF then buildFatLoop data sectorSize rest acc
    else
      match getSector data slot sectorSize with
      | none => .error .goPanic
      | some sectorData =>
        match readFATEntries sectorData sectorSize with
        | .error e => .error e
        | .ok entries => buildFatLoop data sectorSize rest (acc ++ entries)

/-- The allocation-table builder: the DIFAT slot loop started on an empty
table. -/
def buildFat (data : List Nat) (sectorSize : Nat) (difat : List Nat) : Except Err (List Nat) :=
  buildFatLoop data sectorSize difat []

/-- C4: how the allocation-table builder reacts to a non-FREE DIFAT slot
whose sector bytes cannot be fully read.  On a 512-byte buffer (the header
alone) a slot naming sector 1 has start offset 1024, beyond the buffer: the
builder PANICS (Go slice-bounds violation) instead of returning a
`CorruptStructureError`.  Only when the sector's start offset is still
inside the buffer but its bytes run out, as for sector 0 of a 600-byte
buffer, does the builder return the error the claim requires. -/
theorem buildFat_out_of_range_slot_panics :
    buildFat (List.replicate 512 0) 512 (1 :: List.replicate 108 0xFFFFFFFF) =
      .error .goPanic ∧
    buildFat (List.replicate 600 0) 512 (0 :: List.replicate 108 0xFFFFFFFF) =
      .error .corruptStructure := by
  constructor <;> rfl

/-- The sector split of `parseOLE2`: `(len(data) - 512) / sectorSize` whole
regular sectors, sector `i` holding the bytes at
`512 + i*sectorSize .. 512 + (i+1)*sectorSize`. -/
def mkSectors (data : List Nat) (sectorSize : Nat) : List (List Nat) :=
  (List.range ((data.length - 512) / sectorSize)).map
    (fun i => (data.drop (512 + i * sectorSize)).take sectorSize)

/-- Sector concatenation WITHOUT a bounds check, as in the mini-FAT and
mini-stream blocks of `parseOLE2` (`ole.sectors[sectorId]` with no guard): a
chain index at or beyond the sector count is a Go panic. -/
def gatherUnchecked (sectors : List (List Nat)) : List Nat → Except Err (List Nat)
  | [] => .ok []
  | id :: rest =>
    if sectors.length ≤ id then .error .goPanic
    else
      match gatherUnchecked sectors rest with
      | .error e => .error e
      | .ok tail => .ok (sectors.getD id [] ++ tail)

/-- The mini-stream truncation of `parseOLE2`:
`if int(rootStorage.streamSize) < len(miniStreamData) { miniStreamData =
miniStreamData[:streamSize] }` — a plain truncation, with no padding when
the data is already shorter. -/
def truncToSize (dataL : List Nat) (size : Nat) : List Nat :=
  if size < dataL.length then dataL.take size else dataL

/-- The mini-sector split of `parseOLE2`: `numMiniSectors =
len(miniStreamData) / ole.miniSectorSize` blocks (integer division), block
`i` being the byte range from `i*miniSectorSize` with its end clamped to the
data length.  Because the block count is rounded DOWN, the clamp can never
fire and a trailing partial block is not produced. -/
def mkMiniSectors (miniStreamData : List Nat) (miniSectorSize : Nat) : List (List Nat) :=
  (List.range (miniStreamData.length / miniSectorSize)).map
    (fun i =>
      let start := i * miniSectorSize
      let stop := min (start + miniSectorSize) miniStreamData.length
      (miniStreamData.drop start).take (stop - start))

/-- The mini-stream block of `parseOLE2`: walk the regular chain from the
root entry's start sector, concatenate the regular sectors (unchecked
indexing), truncate to the root's declared stream size, split into
mini-sectors. -/
def miniStreamStage (fat : List Nat) (sectors : List (List Nat)) (root : DirEntry)
    (miniSectorSize fuel : Nat) : Except Err (List (List Nat)) :=
  match readChainGo fat root.startSector fuel with
  | none => .error .fuelOut
  | some chain =>
    match gatherUnchecked sectors chain with
    | .error e => .error e
    | .ok miniStreamData =>
      .ok (mkMiniSectors (truncToSize miniStreamData root.streamSize) miniSectorSize)

/-- A root entry whose regular chain is the single sector 0 and whose
declared stream size is 200 bytes. -/
def rootC5 : DirEntry := { emptyDirEntry with startSector := 0, streamSize := 200 }

/-- C5: the trailing partial mini-sector is discarded, not kept.  With a
one-sector regular chain of 512 bytes and a declared root stream size of
200, the mini-stream is correctly truncated to 200 bytes, but the 64-byte
mini-sector split produces only the 3 full blocks (192 bytes); the final
8-byte block the claim requires is missing, so the blocks do not
reassemble to the mini-stream. -/
theorem miniStream_trailing_block_discarded :
    miniStreamStage [0xFFFFFFFE] [List.replicate 512 7] rootC5 64 1 =
      .ok [List.replicate 64 7, List.replicate 64 7, List.replicate 64 7] ∧
    (List.replicate 64 7 ++ (List.replicate 64 7 ++ (List.replicate 64 7 ++ []))
        : List Nat).length = 192 ∧
    truncToSize (List.replicate 512 7) rootC5.streamSize = List.replicate 200 7 := by
  refine ⟨by decide, by decide, by decide⟩

/-- Simple case folding of one character code: the ASCII fragment of the
Unicode simple case-folding that Go's `strings.EqualFold` applies rune by
rune (upper-case ASCII letters fold to lower case).  Every stream name the
converter handles ("Workbook", "Book", "Root Entry") is ASCII. -/
def foldChar (c : Nat) : Nat := if 65 ≤ c ∧ c ≤ 90 then c + 32 else c

/-- `strings.EqualFold` on decoded names: equality of the case-folded
character sequences. -/
def equalFold (s t : List Nat) : Bool := decide (s.map foldChar = t.map foldChar)

/-- The `ole2` structure of `converter.go`. -/
structure Ole2 where
  header : Ole2Header
  sectorSize : Nat
  miniSectorSize : Nat
  dirEntries : List DirEntry
  fat : List Nat
  miniFat : List Nat
  sectors : List (List Nat)
  miniSectors : List (List Nat)
deriving DecidableEq, Repr

/-- The zero-valued header, for building concrete test containers. -/
def emptyHeader : Ole2Header :=
  { signature := [], clsid := [], minorVersion := 0, dllVersion := 0, byteOrder := 0
  , sectorShift := 0, miniSectorShift := 0, reserved1 := [], numDirSectors := 0
  , numFATSectors := 0, firstDirSector := 0, transactionSig := 0, miniStreamCutoff := 0
  , firstMiniFATSec := 0, numMiniFATSecs := 0, firstDIFATSec := 0, numDIFATSecs := 0
  , difat := [] }

/-- The name-lookup loop at the top of `getStream`: scan the entry list in
order and keep the first entry whose name matches case-insensitively. -/
def findEntry : List DirEntry → List Nat → Option DirEntry
  | [], _ => none
  | e :: rest, name => if equalFold e.name name then some e else findEntry rest name

/-- Sector concatenation WITH the bounds check of `getStream` (and of the
directory-chain block of `parseOLE2`): an index at or beyond the sector
count returns the "invalid sector ID" error, a `CorruptStructureError`. -/
def gatherChecked (sectors : List (List Nat)) : List Nat → Except Err (List Nat)
  | [] => .ok []
  | id :: rest =>
    if sectors.length ≤ id then .error .corruptStructure
    else
      match gatherChecked sectors rest with
      | .error e => .error e
      | .ok tail => .ok (sectors.getD id [] ++ tail)

/-- The final `data[:streamEntry.streamSize]` of `getStream`.  `data` was
created by `make([]byte, 0, streamSize)`, so its capacity is at least
`streamSize`; Go's slice expression may extend past the length up to the
capacity, and when the assembled data is shorter than the declared size the
extension reads the untouched, zero-initialised tail of the backing array
(no reallocation can have happened, since the length never exceeded the
original capacity).  The result is therefore the data truncated to `size`
and padded with zero bytes up to `size`. -/
def truncGo (dataL : List Nat) (size : Nat) : List Nat :=
  dataL.take size ++ List.replicate (size - dataL.length) 0

/-- `getStream` of `converter.go`: find the entry by case-insensitive name,
choose the mini or regular path by comparing the declared stream size with
the header's mini-stream cutoff, walk the corresponding allocation table,
concatenate the matching (mini-)sectors with a bounds check, and slice the
result to the declared size. -/
def getStream (ole : Ole2) (name : List Nat) (fuel : Nat) : Except Err (List Nat) :=
  match findEntry ole.dirEntries name with
  | none => .error .streamNotFound
  | some e =>
    if e.streamSize < ole.header.miniStreamCutoff then
      match readChainGo ole.miniFat e.startSector fuel with
      | none => .error .fuelOut
      | some chain =>
        match gatherChecked ole.miniSectors chain with
        | .error err => .error err
        | .ok dataL => .ok (truncGo dataL e.streamSize)
    else
      match readChainGo ole.fat e.startSector fuel with
      | none => .error .fuelOut
      | some chain =>
        match gatherChecked ole.sectors chain with
        | .error err => .error err
        | .ok dataL => .ok (truncGo dataL e.streamSize)

/-- The mini branch of `getStream`, as a named function: walk the MINI
allocation table from the entry's start sector and concatenate
MINI-sectors. -/
def resolveMini (ole : Ole2) (e : DirEntry) (fuel : Nat) : Except Err (List Nat) :=
  match readChainGo ole.miniFat e.startSector fuel with
  | none => .error .fuelOut
  | some chain =>
    match gatherChecked ole.miniSectors chain with
    | .error err => .error err
    | .ok dataL => .ok (truncGo dataL e.streamSize)

/-- The regular branch of `getStream`, as a named function: walk the REGULAR
allocation table from the entry's start sector and concatenate REGULAR
sectors. -/
def resolveRegular (ole : Ole2) (e : DirEntry) (fuel : Nat) : Except Err (List Nat) :=
  match readChainGo ole.fat e.startSector fuel with
  | none => .error .fuelOut
  | some chain =>
    match gatherChecked ole.sectors chain with
    | .error err => .error err
    | .ok dataL => .ok (truncGo dataL e.streamSize)

theorem getStream_found (ole : Ole2) (name : List Nat) (fuel : Nat) (e : DirEntry)
    (hf : findEntry ole.dirEntries name = some e) :
    getStream ole name fuel =
      if e.streamSize < ole.header.miniStreamCutoff then resolveMini ole e fuel
      else resolveRegular ole e fuel := by
  simp only [getStream, resolveMini, resolveRegular, hf]

/-- A stream entry of declared size 10 whose mini chain is the single
mini-sector 0 and then stops early (the table entry 1 is out of range). -/
def eC3 : DirEntry := { emptyDirEntry with name := [87], streamSize := 10 }

/-- A container holding only `eC3`: one 4-byte mini-sector, a mini
allocation table whose single entry points out of range, cutoff 4096. -/
def oleC3 : Ole2 :=
  { header := { emptyHeader with miniStreamCutoff := 4096 }, sectorSize := 512
  , miniSectorSize := 64, dirEntries := [eC3], fat := [], miniFat := [1]
  , sectors := [], miniSectors := [[1, 2, 3, 4]] }

/-- C3: a chain that terminates early does NOT make stream resolution fail.
The entry declares 10 bytes, the mini chain stops after one 4-byte
mini-sector, and `getStream` returns a 10-byte buffer padded with six zero
bytes instead of the `CorruptStructureError` the claim requires. -/
theorem getStream_short_chain_zero_pads :
    getStream oleC3 [87] 1 = .ok [1, 2, 3, 4, 0, 0, 0, 0, 0, 0] ∧
    getStream oleC3 [87] 1 ≠ .error .corruptStructure := by
  exact ⟨rfl, by decide⟩

/-- C6: stream resolution chooses its path only by comparing the entry's
declared stream size with the header's mini-stream cutoff — strictly below
the cutoff resolves through the mini allocation table over mini-sectors
(`resolveMini`), at or above it through the regular allocation table over
regular sectors (`resolveRegular`). -/
theorem getStream_path_selection (ole : Ole2) (name : List Nat) (fuel : Nat) (e : DirEntry)
    (hf : findEntry ole.dirEntries name = some e) :
    (e.streamSize < ole.header.miniStreamCutoff →
       getStream ole name fuel = resolveMini ole e fuel) ∧
    (ole.header.miniStreamCutoff ≤ e.streamSize →
       getStream ole name fuel = resolveRegular ole e fuel) := by
  rw [getStream_found ole name fuel e hf]
  constructor
  · intro h; exact if_pos h
  · intro h; exact if_neg (by omega)

/-- An entry of declared size `cutoff - 1 = 4095`. -/
def eC6a : DirEntry :=
  { emptyDirEntry with name := [65], streamSize := 4095, startSector := 0xFFFFFFFE }

/-- An entry of declared size `cutoff = 4096`. -/
def eC6b : DirEntry :=
  { emptyDirEntry with name := [66], streamSize := 4096, startSector := 0xFFFFFFFE }

/-- A container with cutoff 4096 holding `eC6a` and `eC6b`. -/
def oleC6 : Ole2 :=
  { header := { emptyHeader with miniStreamCutoff := 4096 }, sectorSize := 512
  , miniSectorSize := 64, dirEntries := [eC6a, eC6b], fat := [], miniFat := []
  , sectors := [], miniSectors := [] }

/-- Witness for C6 at the boundary: the size-4095 entry resolves through the
mini path and the size-4096 entry through the regular path. -/
theorem getStream_path_selection_witness :
    (eC6a.streamSize = 4095 ∧ getStream oleC6 [65] 1 = resolveMini oleC6 eC6a 1) ∧
    (eC6b.streamSize = 4096 ∧ getStream oleC6 [66] 1 = resolveRegular oleC6 eC6b 1) := by
  refine ⟨⟨rfl, (getStream_path_selection oleC6 [65] 1 eC6a (by decide)).1 (by decide)⟩,
    ⟨rfl, (getStream_path_selection oleC6 [66] 1 eC6b (by decide)).2 (by decide)⟩⟩

theorem findEntry_eq_none_iff (entries : List DirEntry) (name : List Nat) :
    findEntry entries name = none ↔ ∀ e ∈ entries, equalFold e.name name = false := by
  induction entries with
  | nil => simp [findEntry]
  | cons a rest ih =>
    simp only [findEntry]
    cases hb : equalFold a.name name with
    | true => simp [hb]
    | false => simp [hb, ih]

theorem findEntry_first_match (entries : List DirEntry) (name : List Nat) (e : DirEntry)
    (hf : findEntry entries name = some e) :
    ∃ i, ∃ hi : i < entries.length, entries.get ⟨i, hi⟩ = e ∧
      ∀ j, ∀ hj : j < entries.length, j < i →
        equalFold (entries.get ⟨j, hj⟩).name name = false := by
  induction entries with
  | nil => cases hf
  | cons a rest ih =>
    simp only [findEntry] at hf
    cases hb : equalFold a.name name with
    | true =>
      rw [hb, if_pos rfl] at hf
      refine ⟨0, by simp, by simpa using hf, ?_⟩
      intro j hj hj0; omega
    | false =>
      rw [hb] at hf
      simp only [Bool.false_eq_true, if_false] at hf
      obtain ⟨i, hi, hget, hfirst⟩ := ih hf
      refine ⟨i + 1, by simpa using Nat.succ_lt_succ hi, by simpa using hget, ?_⟩
      intro j hj hji
      cases j with
      | zero => simpa using hb
      | succ k =>
        have hk : k < rest.length := by simpa using hj
        simpa using hfirst k hk (by omega)

theorem findEntry_some_matches (entries : List DirEntry) (name : List Nat) (e : DirEntry)
    (hf : findEntry entries name = some e) : equalFold e.name name = true := by
  induction entries with
  | nil => cases hf
  | cons a rest ih =>
    simp only [findEntry] at hf
    cases hb : equalFold a.name name with
    | true => rw [hb, if_pos rfl] at hf; cases hf; exact hb
    | false =>
      rw [hb] at hf
      simp only [Bool.false_eq_true, if_false] at hf
      exact ih hf

theorem gatherChecked_error_corrupt (sectors : List (List Nat)) :
    ∀ chain e, gatherChecked sectors chain = .error e → e = .corruptStructure := by
  intro chain
  induction chain with
  | nil => intro e h; cases h
  | cons id rest ih =>
    intro e h
    simp only [gatherChecked] at h
    split at h
    · cases h; rfl
    · cases hg : gatherChecked sectors rest with
      | error e2 => rw [hg] at h; exact Except.error.inj h ▸ ih e2 hg
      | ok tail => rw [hg] at h; cases h

theorem resolveMini_ne_streamNotFound (ole : Ole2) (e : DirEntry) (fuel : Nat) :
    resolveMini ole e fuel ≠ .error .streamNotFound := by
  unfold resolveMini
  cases hc : readChainGo ole.miniFat e.startSector fuel with
  | none => simp
  | some chain =>
    cases hg : gatherChecked ole.miniSectors chain with
    | error err =>
      have := gatherChecked_error_corrupt ole.miniSectors chain err hg
      subst this; simp [hg]
    | ok dataL => simp [hg]

theorem resolveRegular_ne_streamNotFound (ole : Ole2) (e : DirEntry) (fuel : Nat) :
    resolveRegular ole e fuel ≠ .error .streamNotFound := by
  unfold resolveRegular
  cases hc : readChainGo ole.fat e.startSector fuel with
  | none => simp
  | some chain =>
    cases hg : gatherChecked ole.sectors chain with
    | error err =>
      have := gatherChecked_error_corrupt ole.sectors chain err hg
      subst this; simp [hg]
    | ok dataL => simp [hg]

/-- C7: stream lookup is a case-insensitive exact match over the decoded
entry names; resolution fails with the stream-not-found error exactly when
no entry matches, and when the lookup succeeds the found entry is a
case-insensitive match that occurs in the entry list before every other
match (first match wins). -/
theorem getStream_lookup_first_match (ole : Ole2) (name : List Nat) (fuel : Nat) :
    (getStream ole name fuel = .error .streamNotFound ↔
       ∀ e ∈ ole.dirEntries, equalFold e.name name = false) ∧
    (∀ e, findEntry ole.dirEntries name = some e →
       equalFold e.name name = true ∧
       ∃ i, ∃ hi : i < ole.dirEntries.length, ole.dirEntries.get ⟨i, hi⟩ = e ∧
         ∀ j, ∀ hj : j < ole.dirEntries.length, j < i →
           equalFold (ole.dirEntries.get ⟨j, hj⟩).name name = false) := by
  constructor
  · rw [← findEntry_eq_none_iff]
    constructor
    · intro h
      cases hf : findEntry ole.dirEntries name with
      | none => rfl
      | some e =>
        rw [getStream_found ole name fuel e hf] at h
        by_cases hlt : e.streamSize < ole.header.miniStreamCutoff
        · rw [if_pos hlt] at h
          exact absurd h (resolveMini_ne_streamNotFound ole e fuel)
        · rw [if_neg hlt] at h
          exact absurd h (resolveRegular_ne_streamNotFound ole e fuel)
    · intro h; simp [getStream, h]
  · intro e hf
    obtain ⟨i, hi, hget, hfirst⟩ := findEntry_first_match _ _ _ hf
    exact ⟨findEntry_some_matches _ _ _ hf, i, hi, hget, hfirst⟩

/-- An entry named "Book". -/
def eBook : DirEntry := { emptyDirEntry with name := [66, 111, 111, 107] }

/-- An entry named "Workbook". -/
def eWorkbook : DirEntry :=
  { emptyDirEntry with name := [87, 111, 114, 107, 98, 111, 111, 107] }

/-- A container holding the entries "Book" and "Workbook", in that order. -/
def oleC7 : Ole2 :=
  { header := emptyHeader, sectorSize := 512, miniSectorSize := 64
  , dirEntries := [eBook, eWorkbook], fat := [], miniFat := []
  , sectors := [], miniSectors := [] }

/-- Witness for C7: looking up "WORKBOOK" (upper case) finds the entry named
"Workbook", which matches case-insensitively and is the first match in list
order; looking up "NoSuchStream" yields the stream-not-found error. -/
theorem getStream_lookup_first_match_witness :
    (equalFold eWorkbook.name [87, 79, 82, 75, 66, 79, 79, 75] = true ∧
     ∃ i, ∃ hi : i < oleC7.dirEntries.length,
       oleC7.dirEntries.get ⟨i, hi⟩ = eWorkbook ∧
       ∀ j, ∀ hj : j < oleC7.dirEntries.length, j < i →
         equalFold (oleC7.dirEntries.get ⟨j, hj⟩).name
           [87, 79, 82, 75, 66, 79, 79, 75] = false) ∧
    getStream oleC7 [78, 111, 83, 117, 99, 104, 83, 116, 114, 101, 97, 109] 1 =
      .error .streamNotFound := by
  refine ⟨(getStream_lookup_first_match oleC7 [87, 79, 82, 75, 66, 79, 79, 75] 1).2
      eWorkbook (by decide),
    (getStream_lookup_first_match oleC7
      [78, 111, 83, 117, 99, 104, 83, 116, 114, 101, 97, 109] 1).1.mpr (by decide)⟩

theorem parseHeaderStage_ok (data : List Nat) (h1 : 512 ≤ data.length)
    (h2 : data.take 8 = OLE2SIG) :
    parseHeaderStage data =
      .ok ⟨decodeHeader data, goShl1 (decodeHeader data).sectorShift,
        goShl1 (decodeHeader data).miniSectorShift⟩ := by
  unfold parseHeaderStage
  rw [if_neg (by simp [SECTOR_SIZE]; omega)]
  have hsig : (decodeHeader data).signature = OLE2SIG := h2
  rw [if_pos hsig]

theorem goShl1_lt_63 (s : Nat) (h : s < 63) : goShl1 s = 2 ^ s := by
  unfold goShl1
  have h1 : (1 : Nat) <<< s = 2 ^ s := by simp [Nat.shiftLeft_eq]
  have h2 : (2 : Nat) ^ s < 2 ^ 63 := Nat.pow_lt_pow_right (by norm_num) h
  have h3 : (2 : Nat) ^ s < 2 ^ 64 :=
    lt_trans h2 (Nat.pow_lt_pow_right (by norm_num) (by norm_num))
  rw [h1, Nat.mod_eq_of_lt h3, if_pos h2]
  push_cast
  ring

theorem goShl1_eq_63 : goShl1 63 = -(2 ^ 63) := by decide

theorem goShl1_ge_64 (s : Nat) (h : 64 ≤ s) : goShl1 s = 0 := by
  unfold goShl1
  have h1 : (1 : Nat) <<< s = 2 ^ s := by simp [Nat.shiftLeft_eq]
  have h2 : (2 : Nat) ^ s % 2 ^ 64 = 0 := by
    rw [show s = 64 + (s - 64) by omega, pow_add]
    simp [Nat.mul_mod_right]
  rw [h1, h2, if_pos (by norm_num)]
  simp

/-- A 512-byte buffer with the valid magic whose sector-size exponent (the
16-bit field at offset 30) is 64 and whose mini-sector exponent is 0. -/
def dataShift64 : List Nat :=
  OLE2SIG ++ List.replicate 22 0 ++ [64, 0] ++ List.replicate 480 0

/-- C8 counterexample: on a valid-magic 512-byte buffer whose decoded
sector-size exponent is 64, the header decoder succeeds with a sector size
of 0 — Go shifts the `int`-typed 1 in 64 bits, where every bit of
`1 << 64` is lost — not the mathematical 1-shifted-left-by-64 (`2^64`) the
claim asserts. -/
theorem headerStage_shift64_wraps_to_zero :
    parseHeaderStage dataShift64 = .ok ⟨decodeHeader dataShift64, 0, 1⟩ ∧
    (decodeHeader dataShift64).sectorShift = 64 ∧
    ((0 : Int) ≠ 2 ^ (64 : Nat)) := by
  exact ⟨rfl, rfl, by decide⟩

/-- C8 (amended): the header decoder fails with the truncated-input error
for every buffer shorter than 512 bytes, fails with the invalid-signature
error for every buffer of at least 512 bytes whose first 8 bytes differ
from the fixed magic, and otherwise returns a header whose sector size and
mini-sector size equal 1 shifted left by the respective decoded exponents
AS THE PROGRAM EVALUATES THE SHIFT, in a 64-bit signed integer: the exact
power of two for exponents below 63, `-2^63` at exponent 63, and 0 from
exponent 64 on. -/
theorem parseHeaderStage_contract_wrapped (data : List Nat) :
    (data.length < 512 → parseHeaderStage data = .error .truncatedInput) ∧
    (512 ≤ data.length → data.take 8 ≠ OLE2SIG →
       parseHeaderStage data = .error .invalidSignature) ∧
    (512 ≤ data.length → data.take 8 = OLE2SIG →
       ∃ hs, parseHeaderStage data = .ok hs ∧
         hs.sectorSize = goShl1 hs.header.sectorShift ∧
         hs.miniSectorSize = goShl1 hs.header.miniSectorShift ∧
         hs.header.sectorShift = u16le data 30 ∧
         hs.header.miniSectorShift = u16le data 32) ∧
    (∀ s : Nat, (s < 63 → goShl1 s = 2 ^ s) ∧ goShl1 63 = -(2 ^ 63) ∧
       (64 ≤ s → goShl1 s = 0)) := by
  refine ⟨?_, ?_, ?_, ?_⟩
  · intro h
    unfold parseHeaderStage
    rw [if_pos (by simpa [SECTOR_SIZE] using h)]
  · intro h1 h2
    unfold parseHeaderStage
    rw [if_neg (by simp [SECTOR_SIZE]; omega)]
    have hsig : (decodeHeader data).signature ≠ OLE2SIG := h2
    rw [if_neg hsig]
  · intro h1 h2
    exact ⟨_, parseHeaderStage_ok data h1 h2, rfl, rfl, rfl, rfl⟩
  · intro s
    exact ⟨goShl1_lt_63 s, goShl1_eq_63, goShl1_ge_64 s⟩

/-- Witness for C8's amended statement on concrete buffers: the empty
buffer, a 512-byte zero buffer, a 512-byte buffer starting with the magic
(exponents 0, so both sizes are 1), and the wrap characterization applied
at the common exponent 9 (sector size 512). -/
theorem parseHeaderStage_contract_wrapped_witness :
    parseHeaderStage [] = .error .truncatedInput ∧
    parseHeaderStage (List.replicate 512 0) = .error .invalidSignature ∧
    (∃ hs, parseHeaderStage (OLE2SIG ++ List.replicate 504 0) = .ok hs ∧
       hs.sectorSize = goShl1 hs.header.sectorShift ∧
       hs.miniSectorSize = goShl1 hs.header.miniSectorShift ∧
       hs.header.sectorShift = u16le (OLE2SIG ++ List.replicate 504 0) 30 ∧
       hs.header.miniSectorShift = u16le (OLE2SIG ++ List.replicate 504 0) 32) ∧
    goShl1 9 = 512 := by
  refine ⟨(parseHeaderStage_contract_wrapped []).1 (by decide),
    (parseHeaderStage_contract_wrapped (List.replicate 512 0)).2.1 (by decide) (by decide),
    (parseHeaderStage_contract_wrapped
      (OLE2SIG ++ List.replicate 504 0)).2.2.1 (by decide) (by decide),
    by simpa using ((parseHeaderStage_contract_wrapped []).2.2.2 9).1 (by omega)⟩

/-- An UNUSED directory entry (object type 0) that nevertheless carries the
name "Workbook". -/
def eUnusedWb : DirEntry :=
  { emptyDirEntry with name := [87, 111, 114, 107, 98, 111, 111, 107], entryType := 0 }

/-- A stream directory entry (object type 2) named "Workbook". -/
def eStreamWb : DirEntry :=
  { emptyDirEntry with
      name := [87, 111, 114, 107, 98, 111, 111, 107], entryType := 2, streamSize := 5 }

/-- C9 counterexample: name lookup does NOT exclude unused-type entries.
With an unused-type entry named "Workbook" listed before a stream entry of
the same name, the lookup returns the unused entry. -/
theorem findEntry_returns_unused_entry :
    findEntry [eUnusedWb, eStreamWb] [87, 111, 114, 107, 98, 111, 111, 107] =
      some eUnusedWb ∧
    eUnusedWb.entryType = 0 ∧ eUnusedWb ≠ eStreamWb := by
  exact ⟨by decide, rfl, by decide⟩

/-- C9 as amended: every full 128-byte record — unused-type records
included — is appended to the entry list at its original index position,
and name lookup applies no object-type filter at all: it is exactly the
first case-insensitive name match over the full list. -/
theorem dirEntries_appended_lookup_unfiltered (dirData : List Nat)
    (entries : List DirEntry) (name : List Nat) :
    (parseDirEntries dirData).length = dirData.length / 128 ∧
    (∀ i, i < dirData.length / 128 →
       (parseDirEntries dirData).getD i emptyDirEntry =
         decodeDirEntry ((dirData.drop (128 * i)).take 128)) ∧
    findEntry entries name = entries.find? (fun e => equalFold e.name name) := by
  refine ⟨by simp [parseDirEntries], ?_, ?_⟩
  · intro i hi
    have hlen : i < (parseDirEntries dirData).length := by simp [parseDirEntries, hi]
    rw [List.getD_eq_getElem _ emptyDirEntry hlen]
    simp [parseDirEntries]
  · induction entries with
    | nil => rfl
    | cons a rest ih =>
      cases hb : equalFold a.name name with
      | true =>
        rw [List.find?_cons_of_pos rest (by simpa using hb)]
        simp [findEntry, hb]
      | false =>
        rw [List.find?_cons_of_neg rest (by simp [hb])]
        simp only [findEntry, hb, Bool.false_eq_true, if_false]
        exact ih

/-- Witness for C9's amended statement on concrete data: the 256-byte
directory stream made of the type-5 record followed by the "Root Entry"
record decodes to two entries with record 1 at index 1, and the lookup over
the two "Workbook" entries is the unfiltered first match. -/
theorem dirEntries_appended_lookup_unfiltered_witness :
    (parseDirEntries (recType5 ++ recNamedRoot)).length = 2 ∧
    (parseDirEntries (recType5 ++ recNamedRoot)).getD 1 emptyDirEntry =
      decodeDirEntry (((recType5 ++ recNamedRoot).drop 128).take 128) ∧
    findEntry [eUnusedWb, eStreamWb] [87, 111, 114, 107, 98, 111, 111, 107] =
      List.find? (fun e => equalFold e.name [87, 111, 114, 107, 98, 111, 111, 107])
        [eUnusedWb, eStreamWb] := by
  have h := dirEntries_appended_lookup_unfiltered (recType5 ++ recNamedRoot)
    [eUnusedWb, eStreamWb] [87, 111, 114, 107, 98, 111, 111, 107]
  refine ⟨by rw [h.1]; decide, ?_, h.2.2⟩
  have := h.2.1 1 (by decide)
  simpa using this

/-- The concatenation of the sectors selected by a chain, in chain order. -/
def chainData (sectors : List (List Nat)) (chain : List Nat) : List Nat :=
  (chain.map (fun id => sectors.getD id [])).flatten

theorem gatherChecked_ok (sectors : List (List Nat)) (chain : List Nat)
    (hb : ∀ id ∈ chain, id < sectors.length) :
    gatherChecked sectors chain = .ok (chainData sectors chain) := by
  induction chain with
  | nil => simp [gatherChecked, chainData]
  | cons id rest ih =>
    have hid : id < sectors.length := hb id (by simp)
    have hrest : ∀ i ∈ rest, i < sectors.length := fun i hi => hb i (by simp [hi])
    simp [gatherChecked, Nat.not_le.mpr hid, ih hrest, chainData]

theorem getD_append_ge (l r : List Nat) (d : Nat) :
    ∀ i, l.length ≤ i → (l ++ r).getD i d = r.getD (i - l.length) d := by
  induction l with
  | nil => intro i _; simp
  | cons a t ih =>
    intro i hi
    cases i with
    | zero => simp at hi
    | succ k =>
      simp only [List.cons_append, List.getD_cons_succ, List.length_cons,
        Nat.succ_sub_succ]
      exact ih k (by simpa using hi)

theorem getD_replicate_zero (d : Nat) :
    ∀ k i, i < k → (List.replicate k 0).getD i d = 0 := by
  intro k
  induction k with
  | zero => intro i hi; exact absurd hi (Nat.not_lt_zero i)
  | succ n ih =>
    intro i hi
    cases i with
    | zero => simp [List.replicate_succ]
    | succ m =>
      simp only [List.replicate_succ, List.getD_cons_succ]
      exact ih m (by omega)

theorem truncGo_length (dataL : List Nat) (size : Nat) :
    (truncGo dataL size).length = size := by
  simp only [truncGo, List.length_append, List.length_take, List.length_replicate]
  omega

theorem truncGo_padding (dataL : List Nat) (size i : Nat)
    (h1 : dataL.length ≤ i) (h2 : i < size) :
    (truncGo dataL size).getD i 1 = 0 := by
  have htake : (dataL.take size).length = dataL.length := by
    simp only [List.length_take]; omega
  unfold truncGo
  rw [getD_append_ge _ _ _ i (by omega), htake]
  exact getD_replicate_zero _ _ _ (by omega)

/-- The allocation table `getStream` walks for an entry: the mini table when
the declared size is below the cutoff, the regular one otherwise. -/
def fatFor (ole : Ole2) (e : DirEntry) : List Nat :=
  if e.streamSize < ole.header.miniStreamCutoff then ole.miniFat else ole.fat

/-- The sector list `getStream` concatenates from for an entry: mini-sectors
below the cutoff, regular sectors otherwise. -/
def sectorsFor (ole : Ole2) (e : DirEntry) : List (List Nat) :=
  if e.streamSize < ole.header.miniStreamCutoff then ole.miniSectors else ole.sectors

/-- C10: when the lookup finds an entry and every chain index passes the
bounds check, `getStream` succeeds and returns a buffer of exactly the
entry's declared stream size; every position at or past the end of the
concatenated chain data (but below the declared size) holds a zero byte,
the untouched tail of the buffer preallocated with the declared size as its
capacity. -/
theorem getStream_pads_to_declared_size (ole : Ole2) (name : List Nat) (fuel : Nat)
    (e : DirEntry) (chain : List Nat)
    (hf : findEntry ole.dirEntries name = some e)
    (hc : readChainGo (fatFor ole e) e.startSector fuel = some chain)
    (hb : ∀ id ∈ chain, id < (sectorsFor ole e).length) :
    getStream ole name fuel =
      .ok (truncGo (chainData (sectorsFor ole e) chain) e.streamSize) ∧
    (truncGo (chainData (sectorsFor ole e) chain) e.streamSize).length =
      e.streamSize ∧
    (∀ i, (chainData (sectorsFor ole e) chain).length ≤ i → i < e.streamSize →
       (truncGo (chainData (sectorsFor ole e) chain) e.streamSize).getD i 1 = 0) := by
  refine ⟨?_, truncGo_length _ _, fun i hi1 hi2 => truncGo_padding _ _ _ hi1 hi2⟩
  rw [getStream_found ole name fuel e hf]
  by_cases h : e.streamSize < ole.header.miniStreamCutoff
  · simp only [fatFor, sectorsFor, if_pos h] at hc hb ⊢
    unfold resolveMini
    rw [hc]
    simp only [gatherChecked_ok _ _ hb]
  · simp only [fatFor, sectorsFor, if_neg h] at hc hb ⊢
    unfold resolveRegular
    rw [hc]
    simp only [gatherChecked_ok _ _ hb]

/-- A stream entry of declared size 6 whose regular chain is the single
two-byte sector 0. -/
def eC10 : DirEntry := { emptyDirEntry with name := [83], streamSize := 6 }

/-- A container holding only `eC10` (cutoff 0, so the regular path is
taken): one regular sector of two bytes, a one-entry table ending the
chain immediately. -/
def oleC10 : Ole2 :=
  { header := emptyHeader, sectorSize := 512, miniSectorSize := 64
  , dirEntries := [eC10], fat := [0xFFFFFFFE], miniFat := []
  , sectors := [[9, 8]], miniSectors := [] }

/-- Witness for C10: on the concrete container the stream resolves to the
6-byte buffer `[9, 8, 0, 0, 0, 0]`, whose tail positions hold zeros. -/
theorem getStream_pads_to_declared_size_witness :
    getStream oleC10 [83] 1 =
      .ok (truncGo (chainData (sectorsFor oleC10 eC10) [0]) eC10.streamSize) ∧
    getStream oleC10 [83] 1 = .ok [9, 8, 0, 0, 0, 0] ∧
    (truncGo (chainData (sectorsFor oleC10 eC10) [0]) eC10.streamSize).getD 3 1 = 0 := by
  have h := getStream_pads_to_declared_size oleC10 [83] 1 eC10 [0]
    (by decide) (by decide) (by decide)
  exact ⟨h.1, by decide, h.2.2 3 (by decide) (by decide)⟩

/-- The full `parseOLE2` pipeline, composing the stages in source order:
header checks and sizes, FAT building from the inline DIFAT slots, the
regular sector split, the bounds-checked directory chain, record decoding,
the root search, the mini FAT (only when the header declares mini-FAT
sectors; its sector concatenation is unchecked), and the mini-stream with
its truncation and mini-sector split.  The header-stage sizes are Go `int`
values: a NEGATIVE sector size (exponent 63) always crashes the parse — the
first non-FREE DIFAT slot's `getSector` builds an inverted slice, and with
every slot FREE the negative sector count does — so it is a panic up front;
a ZERO sector size (exponent 64 and above) lets the FAT loop run harmlessly
(offset 512, empty reads, zero entries wanted) and then divides
`(len(data) - 512) / sectorSize` by zero, a panic right after the FAT; a
non-positive MINI-sector size panics only at the mini-sector split, after
every earlier error return.  A completed parse therefore has positive
sizes, which the `Nat` fields of `Ole2` carry exactly. -/
def parseOLE2 (data : List Nat) (fuel : Nat) : Except Err Ole2 :=
  match parseHeaderStage data with
  | .error e => .error e
  | .ok hs =>
    if hs.sectorSize < 0 then .error .goPanic
    else
      match buildFat data hs.sectorSize.toNat hs.header.difat with
      | .error e => .error e
      | .ok fat =>
        if hs.sectorSize = 0 then .error .goPanic
        else
          let sectors := mkSectors data hs.sectorSize.toNat
          match readChainGo fat hs.header.firstDirSector fuel with
          | none => .error .fuelOut
          | some dirChain =>
            match gatherChecked sectors dirChain with
            | .error e => .error e
            | .ok dirData =>
              let entries := parseDirEntries dirData
              match findRootStorage entries with
              | .error e => .error e
              | .ok root =>
                match
                  ((if 0 < hs.header.numMiniFATSecs then
                    match readChainGo fat hs.header.firstMiniFATSec fuel with
                    | none => Except.error Err.fuelOut
                    | some miniFatChain =>
                      match gatherUnchecked sectors miniFatChain with
                      | .error e => Except.error e
                      | .ok miniFatData => Except.ok (decodeU32s miniFatData)
                  else Except.ok []) : Except Err (List Nat)) with
                | .error e => .error e
                | .ok miniFat =>
                  match readChainGo fat root.startSector fuel with
                  | none => .error .fuelOut
                  | some msChain =>
                    match gatherUnchecked sectors msChain with
                    | .error e => .error e
                    | .ok msData =>
                      if hs.miniSectorSize ≤ 0 then .error .goPanic
                      else
                        .ok { header := hs.header
                            , sectorSize := hs.sectorSize.toNat
                            , miniSectorSize := hs.miniSectorSize.toNat
                            , dirEntries := entries, fat := fat
                            , miniFat := miniFat, sectors := sectors
                            , miniSectors :=
                                mkMiniSectors (truncToSize msData root.streamSize)
                                  hs.miniSectorSize.toNat }
